import Mathlib

/-!
Verification development for the WebSocket tunnel client
(webSocketProxyManager): connection lifecycle state machine,
reconnection policy, request dispatcher and its streaming relay.
The definitions below are a shallow embedding of the module that
exports webSocketProxyManager; side effects (observer notifications,
socket creation and closure, timer arming, outbound sends) are
recorded explicitly as a list of Effect values returned next to the
updated state.
-/

/-- Configured WebSocket endpoint (BASE_WEBSOCKET_URL). -/
def BASE_WEBSOCKET_URL : String := "ws://127.0.0.1:5345/v1/ws"

/-- Heartbeat cadence in milliseconds (PING_INTERVAL_MS). -/
def PING_INTERVAL_MS : Nat := 25 * 1000

/-- Initial reconnect backoff in milliseconds (RECONNECT_INITIAL_DELAY_MS). -/
def RECONNECT_INITIAL_DELAY_MS : Nat := 1000

/-- Maximum reconnect backoff in milliseconds (RECONNECT_MAX_DELAY_MS). -/
def RECONNECT_MAX_DELAY_MS : Nat := 30 * 1000

/-- Jitter bound in milliseconds (RECONNECT_JITTER_MS). -/
def RECONNECT_JITTER_MS : Nat := 500

/-- Numeric readyState constant WS_CONNECTING. -/
def WS_CONNECTING : Nat := 0

/-- Numeric readyState constant WS_OPEN. -/
def WS_OPEN : Nat := 1

/-- Numeric readyState constant WS_CLOSING. -/
def WS_CLOSING : Nat := 2

/-- Numeric readyState constant WS_CLOSED. -/
def WS_CLOSED : Nat := 3

/-- The WebSocketProxyStatus enum from types.ts. -/
inductive WebSocketProxyStatus
  | IDLE
  | CONNECTING
  | CONNECTED
  | RECONNECTING
  | DISCONNECTED
  | ERROR
deriving DecidableEq, Repr

/-- Observable side effects of the connection manager: a status
notification delivered to the registered observer, creation of a
physical WebSocket, an explicit socket closure, the arming of a
one-shot reconnect timer (with its concrete delay), and the spawning
of an asynchronous request dispatch task. -/
inductive Effect
  | notify (st : WebSocketProxyStatus) (detail : Option String)
  | createSocket (url : String)
  | closeSocket (code : Nat)
  | armReconnect (delay : Nat)
  | dispatchRequest (id : String)
deriving DecidableEq, Repr

/-- The module-level mutable variables of the manager: the socket
(modelled by its readyState when present), the current status, the
heartbeat interval (pingIntervalId, modelled as an on-off flag), the
pending reconnect timer (reconnectTimeoutId, carrying its scheduled
delay), the stored backoff, the explicit-close flag and the stored
JWT token. -/
structure MState where
  socket : Option Nat
  currentStatus : WebSocketProxyStatus
  pingActive : Bool
  reconnectTimeoutId : Option Nat
  currentReconnectDelay : Nat
  explicitClose : Bool
  currentJwtToken : Option String
deriving DecidableEq, Repr

/-- updateStatus: skips entirely when the status is unchanged and no
detail string is supplied, otherwise records the new status and
notifies the observer. -/
def updateStatus (newStatus : WebSocketProxyStatus) (details : Option String)
    (s : MState) : MState × List Effect :=
  if s.currentStatus = newStatus ∧ details = none then (s, [])
  else ({ s with currentStatus := newStatus }, [Effect.notify newStatus details])

/-- scheduleReconnect: refuses (transitioning to IDLE with a detail)
when the close was explicit or no token is held; otherwise arms a
one-shot timer at the current backoff plus the jitter drawn at this
call (the Math.random term, passed in as an argument), transitions to
RECONNECTING, and doubles the stored backoff capped at the maximum. -/
def scheduleReconnect (jitter : Nat) (s : MState) : MState × List Effect :=
  if s.explicitClose = true ∨ s.currentJwtToken = none then
    updateStatus WebSocketProxyStatus.IDLE
      (some "Reconnection not attempted (explicit close or no token).") s
  else
    let d := s.currentReconnectDelay + jitter
    let eta := (d + 500) / 1000
    let r1 := updateStatus WebSocketProxyStatus.RECONNECTING
      (some ("Attempting to reconnect in " ++ toString eta ++ "s...")) s
    ({ r1.1 with
        reconnectTimeoutId := some d,
        currentReconnectDelay :=
          min (r1.1.currentReconnectDelay * 2) RECONNECT_MAX_DELAY_MS },
     r1.2 ++ [Effect.armReconnect d])

/-- onSocketOpen: transitions to CONNECTED, resets the backoff to the
initial delay, cancels any pending reconnect timer and starts the
heartbeat. -/
def onSocketOpen (s : MState) : MState × List Effect :=
  let r1 := updateStatus WebSocketProxyStatus.CONNECTED none s
  ({ r1.1 with
      currentReconnectDelay := RECONNECT_INITIAL_DELAY_MS,
      reconnectTimeoutId := none,
      pingActive := true },
   r1.2)

/-- onSocketError: only logs; onSocketClose performs all handling. -/
def onSocketError (s : MState) : MState × List Effect := (s, [])

/-- onSocketClose: stops the heartbeat; returns early when a
reconnect is already scheduled; on an explicit close transitions to
IDLE and consumes the flag; otherwise transitions to DISCONNECTED and
invokes scheduleReconnect. The socket field is cleared except on the
early-return path, mirroring the early return before the final
assignment in the source. -/
def onSocketClose (code : Nat) (reason : String) (jitter : Nat)
    (s : MState) : MState × List Effect :=
  let s0 := { s with pingActive := false }
  if s0.reconnectTimeoutId ≠ none then (s0, [])
  else if s0.explicitClose then
    let r1 := updateStatus WebSocketProxyStatus.IDLE
      (some ("Connection closed by client. Code: " ++ toString code)) s0
    ({ r1.1 with explicitClose := false, socket := none }, r1.2)
  else
    let rsn := if reason = "" then "N/A" else reason
    let r1 := updateStatus WebSocketProxyStatus.DISCONNECTED
      (some ("Connection closed. Code: " ++ toString code ++ ", Reason: " ++ rsn)) s0
    let r2 := scheduleReconnect jitter r1.1
    ({ r2.1 with socket := none }, r1.2 ++ r2.2)

/-- connect: fails fast to ERROR on an empty token; stores the token;
is a no-op (beyond the token store) when the socket is already open or
connecting; otherwise clears the explicit-close flag, transitions to
CONNECTING and constructs the WebSocket. The ctorOk argument models
whether the WebSocket constructor succeeds or throws; on a throw the
manager transitions to ERROR and still calls scheduleReconnect. -/
def connect (ctorOk : Bool) (jitter : Nat) (jwtToken : String)
    (s : MState) : MState × List Effect :=
  if jwtToken = "" then
    updateStatus WebSocketProxyStatus.ERROR
      (some "JWT Token is required to connect.") s
  else
    let s0 := { s with currentJwtToken := some jwtToken }
    if s0.socket = some WS_OPEN ∨ s0.socket = some WS_CONNECTING then (s0, [])
    else
      let s1 := { s0 with explicitClose := false }
      let r2 := updateStatus WebSocketProxyStatus.CONNECTING none s1
      let wsUrl := BASE_WEBSOCKET_URL ++ "?auth_token=" ++ jwtToken
      if ctorOk then
        ({ r2.1 with socket := some WS_CONNECTING },
         r2.2 ++ [Effect.createSocket wsUrl])
      else
        let r3 := updateStatus WebSocketProxyStatus.ERROR
          (some "Failed to instantiate WebSocket.") r2.1
        let r4 := scheduleReconnect jitter r3.1
        (r4.1, r2.2 ++ r3.2 ++ r4.2)

/-- disconnect: marks the close explicit, clears the stored token,
cancels any pending reconnect timer, stops the heartbeat, and closes
the socket if open or connecting; for a socket in another readyState
it synthesizes an onSocketClose call; with no socket it transitions
directly to IDLE. The socket field ends cleared on every path. -/
def disconnect (s : MState) : MState × List Effect :=
  let s0 := { s with
      explicitClose := true,
      currentJwtToken := none,
      reconnectTimeoutId := none,
      pingActive := false }
  match s0.socket with
  | some rs =>
    if rs = WS_OPEN ∨ rs = WS_CONNECTING then
      ({ s0 with socket := none }, [Effect.closeSocket 1000])
    else
      let r1 := onSocketClose 1000 "Client initiated disconnect on non-open socket" 0 s0
      ({ r1.1 with socket := none }, r1.2)
  | none =>
    let r1 := updateStatus WebSocketProxyStatus.IDLE
      (some "Disconnected (no active socket).") s0
    ({ r1.1 with socket := none }, r1.2)

/-- Classification of an inbound frame after the JSON.parse and
type-tag dispatch in onSocketMessage: a well-formed http_request, a
pong, a frame whose tag is unrecognized, and a frame that failed to
parse at all. -/
inductive InboundFrame
  | httpRequest (id : String) (method : String) (url : String)
  | pong
  | unknownType
  | unparseable
deriving DecidableEq, Repr

/-- onSocketMessage: dispatches http_request frames to the request
handler (as an asynchronous task, recorded as a dispatch effect);
pong, unrecognized tags and unparseable payloads are logged and
discarded with no state change and no outbound traffic. -/
def onSocketMessage (f : InboundFrame) (s : MState) : MState × List Effect :=
  match f with
  | InboundFrame.httpRequest id _ _ => (s, [Effect.dispatchRequest id])
  | InboundFrame.pong => (s, [])
  | InboundFrame.unknownType => (s, [])
  | InboundFrame.unparseable => (s, [])

/-!
URL model. handleHttpRequest relies on the platform URL builtin
(new URL, pathname, searchParams.has, searchParams.delete, toString).
The recognizer below models that builtin for the class of URLs
relevant to the dispatcher: scheme://authority/path?query#fragment,
with the query parsed as an ordered key-value list. A string without
an alphabetic scheme followed by :// fails to parse, modelling the
TypeError thrown by the builtin constructor.
-/

/-- Splits a character list at the first occurrence of the separator:
returns the part before it and, when the separator occurs, the part
after it. -/
def splitFirst (sep : Char) : List Char → List Char × Option (List Char)
  | [] => ([], none)
  | c :: cs =>
    if c = sep then ([], some cs)
    else
      let r := splitFirst sep cs
      (c :: r.1, r.2)

/-- Splits a character list at every occurrence of the separator. -/
def splitAll (sep : Char) : List Char → List (List Char)
  | [] => [[]]
  | c :: cs =>
    if c = sep then [] :: splitAll sep cs
    else
      match splitAll sep cs with
      | [] => [[c]]
      | p :: ps => (c :: p) :: ps

/-- A parsed absolute URL: scheme, authority, path (always starting
with a slash), ordered query parameters, optional fragment. -/
structure ParsedURL where
  scheme : String
  authority : String
  pathname : String
  queryParams : List (String × String)
  fragment : Option String
deriving DecidableEq, Repr

/-- Parses a query string into ordered key-value pairs, in the manner
of URLSearchParams: pieces are separated by ampersands, empty pieces
are skipped, a piece without an equals sign carries an empty value. -/
def parseQueryParams (q : List Char) : List (String × String) :=
  (splitAll '&' q).filterMap (fun piece =>
    if piece = [] then none
    else
      let r := splitFirst '=' piece
      some (String.mk r.1, String.mk (r.2.getD [])))

/-- Parses an absolute URL of the form scheme://authority/path?query#fragment.
Returns none when the scheme is missing, empty or non-alphabetic, or
when the double slash after the colon is absent. -/
def parseURL (s : String) : Option ParsedURL :=
  let r0 := splitFirst ':' s.data
  match r0.2 with
  | none => none
  | some afterColon =>
    if r0.1 ≠ [] ∧ r0.1.all Char.isAlpha then
      match afterColon with
      | '/' :: '/' :: rest =>
        let rHash := splitFirst '#' rest
        let rQ := splitFirst '?' rHash.1
        let rPath := splitFirst '/' rQ.1
        some {
          scheme := String.mk r0.1,
          authority := String.mk rPath.1,
          pathname := match rPath.2 with
            | none => "/"
            | some p => String.mk ('/' :: p),
          queryParams := match rQ.2 with
            | none => []
            | some qs => parseQueryParams qs,
          fragment := rHash.2.map String.mk }
      | _ => none
    else none

/-- Serializes a ParsedURL back to its string form, in the manner of
the URL toString getter: the query is rendered only when parameters
remain, each parameter as key=value joined by ampersands. -/
def urlToString (p : ParsedURL) : String :=
  p.scheme ++ "://" ++ p.authority ++ p.pathname
    ++ (match p.queryParams with
        | [] => ""
        | ps => "?" ++ String.intercalate "&"
            (ps.map (fun kv => kv.1 ++ "=" ++ kv.2)))
    ++ (match p.fragment with
        | none => ""
        | some f => "#" ++ f)

/-- String.prototype.endsWith on the character lists of the strings. -/
def strEndsWith (s suffixStr : String) : Bool :=
  suffixStr.data.isSuffixOf s.data

/-!
Incremental UTF-8 decoding. The streaming branch of handleHttpRequest
decodes each byte chunk with TextDecoder.decode(value, stream true),
which withholds a trailing incomplete multi-byte sequence until the
following chunk, and flushes the decoder at end-of-stream with a final
argument-free decode call. The model below works on byte lists and
produces code-point lists; decodeStep consumes one scalar from the
front of the stream, or reports none when the available bytes are a
proper prefix of a longer sequence and more input is required.
Handling of ill-formed input is simplified: a rejected lead or
continuation byte consumes one byte and yields U+FFFD, and any bytes
still pending at the flush yield a single U+FFFD.
-/

/-- Whether a byte is a UTF-8 continuation byte. -/
def isCont (b : Nat) : Bool := decide (0x80 ≤ b ∧ b ≤ 0xBF)

/-- Decodes one code point from the front of the byte stream. Returns
none when the stream is empty or ends inside a multi-byte sequence
whose remaining bytes have not arrived yet. -/
def decodeStep : List Nat → Option (Nat × List Nat)
  | [] => none
  | b0 :: rest =>
    if b0 < 0x80 then some (b0, rest)
    else if 0xC0 ≤ b0 ∧ b0 ≤ 0xDF then
      match rest with
      | [] => none
      | b1 :: r1 =>
        if isCont b1 then some ((b0 - 0xC0) * 0x40 + (b1 - 0x80), r1)
        else some (0xFFFD, rest)
    else if 0xE0 ≤ b0 ∧ b0 ≤ 0xEF then
      match rest with
      | b1 :: b2 :: r2 =>
        if isCont b1 ∧ isCont b2 then
          some ((b0 - 0xE0) * 0x1000 + (b1 - 0x80) * 0x40 + (b2 - 0x80), r2)
        else some (0xFFFD, rest)
      | _ => none
    else if 0xF0 ≤ b0 ∧ b0 ≤ 0xF7 then
      match rest with
      | b1 :: b2 :: b3 :: r3 =>
        if isCont b1 ∧ isCont b2 ∧ isCont b3 then
          some ((b0 - 0xF0) * 0x40000 + (b1 - 0x80) * 0x1000
                + (b2 - 0x80) * 0x40 + (b3 - 0x80), r3)
        else some (0xFFFD, rest)
      | _ => none
    else some (0xFFFD, rest)

/-- decodeStep consumes at least one byte whenever it produces a code
point. -/
theorem decodeStep_shrink (bs : List Nat) (c : Nat) (r : List Nat)
    (h : decodeStep bs = some (c, r)) : r.length < bs.length := by
  match bs with
  | [] => simp [decodeStep] at h
  | b0 :: rest =>
    simp only [decodeStep] at h
    repeat' split at h
    all_goals try simp at h
    all_goals obtain ⟨h2, h3⟩ := h
    all_goals subst_vars
    all_goals simp only [List.length_cons]
    all_goals omega

/-- decodeStep is local: a decision to produce a code point from a
prefix of the stream is unaffected by bytes arriving later. -/
theorem decodeStep_append (a b : List Nat) (c : Nat) (r : List Nat)
    (h : decodeStep a = some (c, r)) :
    decodeStep (a ++ b) = some (c, r ++ b) := by
  match a with
  | [] => simp [decodeStep] at h
  | b0 :: rest =>
    simp only [decodeStep] at h
    repeat' split at h
    all_goals try simp at h
    all_goals obtain ⟨h2, h3⟩ := h
    all_goals subst_vars
    all_goals simp only [decodeStep, List.cons_append]
    all_goals split_ifs <;> simp_all

/-- The incremental decoder core: greedily decodes code points from
the front of the byte list and returns them together with the trailing
bytes it is still withholding (the incomplete sequence, if any). -/
def utf8DecodeCore (bs : List Nat) : List Nat × List Nat :=
  match h : decodeStep bs with
  | none => ([], bs)
  | some (c, r) =>
    let p := utf8DecodeCore r
    (c :: p.1, p.2)
termination_by bs.length
decreasing_by exact decodeStep_shrink bs c r h

/-- Unfolding lemma for the withholding branch of the core. -/
theorem utf8DecodeCore_none (bs : List Nat) (h : decodeStep bs = none) :
    utf8DecodeCore bs = ([], bs) := by
  rw [utf8DecodeCore]
  split <;> simp_all

/-- Unfolding lemma for the producing branch of the core. -/
theorem utf8DecodeCore_some (bs : List Nat) (c : Nat) (r : List Nat)
    (h : decodeStep bs = some (c, r)) :
    utf8DecodeCore bs = (c :: (utf8DecodeCore r).1, (utf8DecodeCore r).2) := by
  rw [utf8DecodeCore]
  split <;> simp_all

/-- The pending bytes returned by the core are always bytes the
decoder is withholding for more input. -/
theorem utf8DecodeCore_pending (bs : List Nat) :
    decodeStep (utf8DecodeCore bs).2 = none := by
  cases h : decodeStep bs with
  | none => rw [utf8DecodeCore_none bs h]; exact h
  | some cr =>
    obtain ⟨c, r⟩ := cr
    rw [utf8DecodeCore_some bs c r h]
    exact utf8DecodeCore_pending r
termination_by bs.length
decreasing_by exact decodeStep_shrink bs c r h

/-- Composition of the incremental decoder: decoding a stream in two
installments, carrying the withheld bytes across the boundary, agrees
with decoding the concatenated stream. -/
theorem utf8DecodeCore_append (a b : List Nat) :
    utf8DecodeCore (a ++ b)
      = ((utf8DecodeCore a).1 ++ (utf8DecodeCore ((utf8DecodeCore a).2 ++ b)).1,
         (utf8DecodeCore ((utf8DecodeCore a).2 ++ b)).2) := by
  cases h : decodeStep a with
  | none =>
    rw [utf8DecodeCore_none a h]
    simp
  | some cr =>
    obtain ⟨c, r⟩ := cr
    have h2 := decodeStep_append a b c r h
    rw [utf8DecodeCore_some a c r h, utf8DecodeCore_some (a ++ b) c (r ++ b) h2]
    rw [utf8DecodeCore_append r b]
    simp
termination_by a.length
decreasing_by exact decodeStep_shrink a c r h

/-- The egress sanitation step at the top of handleHttpRequest: for a
GET request whose URL parses and whose path ends in /v1beta/models or
/v1beta/models/, every key query parameter is deleted and the URL is
reserialized; every other case leaves the URL text untouched. -/
def sanitizeRequestUrl (method : String) (url : String) : String :=
  if method = "GET" then
    match parseURL url with
    | some parsedUrl =>
      if strEndsWith parsedUrl.pathname "/v1beta/models" = true
          ∨ strEndsWith parsedUrl.pathname "/v1beta/models/" = true then
        if parsedUrl.queryParams.any (fun kv => kv.1 == "key") then
          urlToString { parsedUrl with
            queryParams := parsedUrl.queryParams.filter (fun kv => !(kv.1 == "key")) }
        else url
      else url
    | none => url
  else url

/-!
The request dispatcher. Outbound wire messages carry their decoded
text payloads as code-point lists, matching the decoder model above.
handleHttpRequest is parameterized by the outcome of the single
outbound fetch call, covering every execution path of the source: the
fetch rejecting, the rare rejection with a Response object (the
instanceof Response branch), a buffered body read to completion, the
buffered body read failing, a streamed body read to completion, and a
streamed body whose read rejects after a prefix of chunks. The
returned message list records the successive sendToServer calls in
order, next to the URL handed to fetch.
-/

/-- The client-to-server wire messages (WSClientSentMessage in
types.ts), with string bodies modelled as code-point lists. The
optional field of the error message models the embedded http_response
detail (status and body text) of the HTTP_ERROR branch. -/
inductive WSClientSentMessage
  | ping
  | httpResponse (id : String) (status : Nat)
      (headers : List (String × String)) (body : List Nat)
  | streamStart (id : String) (status : Nat)
      (headers : List (String × String))
  | streamChunk (id : String) (data : List Nat)
  | streamEnd (id : String)
  | errorMessage (id : String) (code : String) (message : String)
      (httpDetail : Option (Nat × List Nat))
deriving DecidableEq, Repr

/-- The possible outcomes of the single fetch call and the subsequent
body reads performed by handleHttpRequest. -/
inductive FetchOutcome
  | fetchFail (message : String)
  | responseThrown (status : Nat) (body : List Nat) (message : String)
  | buffered (status : Nat) (headers : List (String × String))
      (bodyBytes : List Nat)
  | bufferedReadFail (status : Nat) (headers : List (String × String))
      (message : String)
  | streamed (status : Nat) (headers : List (String × String))
      (chunks : List (List Nat))
  | streamedReadFail (status : Nat) (headers : List (String × String))
      (chunks : List (List Nat)) (message : String)
deriving DecidableEq, Repr

/-- Flushing the decoder at end-of-stream (the argument-free decode
call): nothing when no bytes are withheld, one replacement character
for a withheld incomplete sequence. -/
def flushFinal (pending : List Nat) : List Nat :=
  if pending = [] then [] else [0xFFFD]

/-- Decoding an entire byte sequence in one pass, flush included. -/
def utf8DecodeAll (bs : List Nat) : List Nat :=
  (utf8DecodeCore bs).1 ++ flushFinal (utf8DecodeCore bs).2

/-- The body-reading loop of the streaming branch: one stream_chunk
message is sent per read, carrying that read's incremental decoding
(sent even when the decoding is empty); the decoder state is threaded
through the loop and the withheld bytes are returned at the end. -/
def streamReadLoop (id : String) (pending : List Nat) :
    List (List Nat) → List WSClientSentMessage × List Nat
  | [] => ([], pending)
  | c :: cs =>
    let d := utf8DecodeCore (pending ++ c)
    let r := streamReadLoop id d.2 cs
    (WSClientSentMessage.streamChunk id d.1 :: r.1, r.2)

/-- handleHttpRequest: sanitizes the URL, issues the fetch once, and
relays the outcome: one error message on failure, one http_response
for a buffered body, or stream_start, the per-read chunk messages, a
final flush chunk when non-empty, and stream_end for a streamed body.
A read failure mid-stream jumps to the catch block, so the flush and
stream_end are skipped and one error message closes the exchange. -/
def handleHttpRequest (id method url : String) (outcome : FetchOutcome) :
    String × List WSClientSentMessage :=
  let fetchUrl := sanitizeRequestUrl method url
  let msgs :=
    match outcome with
    | FetchOutcome.fetchFail m =>
      [WSClientSentMessage.errorMessage id "FETCH_ERROR" m none]
    | FetchOutcome.responseThrown st body m =>
      [WSClientSentMessage.errorMessage id "HTTP_ERROR" m (some (st, body))]
    | FetchOutcome.buffered st hd bodyBytes =>
      [WSClientSentMessage.httpResponse id st hd (utf8DecodeAll bodyBytes)]
    | FetchOutcome.bufferedReadFail _ _ m =>
      [WSClientSentMessage.errorMessage id "FETCH_ERROR" m none]
    | FetchOutcome.streamed st hd chunks =>
      let loop := streamReadLoop id [] chunks
      let flush := flushFinal loop.2
      WSClientSentMessage.streamStart id st hd
        :: loop.1
        ++ (if flush = [] then []
            else [WSClientSentMessage.streamChunk id flush])
        ++ [WSClientSentMessage.streamEnd id]
    | FetchOutcome.streamedReadFail st hd chunks m =>
      let loop := streamReadLoop id [] chunks
      WSClientSentMessage.streamStart id st hd
        :: loop.1 ++ [WSClientSentMessage.errorMessage id "FETCH_ERROR" m none]
  (fetchUrl, msgs)

/-- Whether a message is terminal for its exchange: http_response,
stream_end or error. -/
def isTerminal : WSClientSentMessage → Bool
  | WSClientSentMessage.httpResponse .. => true
  | WSClientSentMessage.streamEnd _ => true
  | WSClientSentMessage.errorMessage .. => true
  | _ => false

/-- The exchange id carried by a message, when it carries one. -/
def messageId : WSClientSentMessage → Option String
  | WSClientSentMessage.ping => none
  | WSClientSentMessage.httpResponse id .. => some id
  | WSClientSentMessage.streamStart id .. => some id
  | WSClientSentMessage.streamChunk id _ => some id
  | WSClientSentMessage.streamEnd id => some id
  | WSClientSentMessage.errorMessage id .. => some id

/-- The data field of a stream_chunk message. -/
def chunkData : WSClientSentMessage → Option (List Nat)
  | WSClientSentMessage.streamChunk _ d => some d
  | _ => none

/-- Whether a message is a stream_chunk. -/
def isStreamChunk : WSClientSentMessage → Bool
  | WSClientSentMessage.streamChunk .. => true
  | _ => false

/-- The body-reading loop sends only stream_chunk messages, one per
read chunk. -/
theorem streamReadLoop_chunks_only (id : String) :
    ∀ (cs : List (List Nat)) (p : List Nat),
    (streamReadLoop id p cs).1.filter isStreamChunk = (streamReadLoop id p cs).1
      ∧ (streamReadLoop id p cs).1.length = cs.length
      ∧ (streamReadLoop id p cs).1.filter isTerminal = [] := by
  intro cs
  induction cs with
  | nil => intro p; simp [streamReadLoop]
  | cons c cs ih =>
    intro p
    have h := ih (utf8DecodeCore (p ++ c)).2
    simp [streamReadLoop, isStreamChunk, isTerminal, h.1, h.2.1, h.2.2]

/-- Relating the body-reading loop to the one-pass decoding of the
concatenated byte stream: starting from a withheld-byte state, the
concatenation of the data fields sent by the loop is exactly the
one-pass decoding of the withheld bytes followed by all chunks, and
the loop ends withholding exactly what the one-pass decoder withholds. -/
theorem streamReadLoop_decodes (id : String) :
    ∀ (cs : List (List Nat)) (p : List Nat), decodeStep p = none →
    ((streamReadLoop id p cs).1.filterMap chunkData).flatten
        = (utf8DecodeCore (p ++ cs.flatten)).1
      ∧ (streamReadLoop id p cs).2 = (utf8DecodeCore (p ++ cs.flatten)).2 := by
  intro cs
  induction cs with
  | nil =>
    intro p hp
    simp [streamReadLoop, utf8DecodeCore_none p hp]
  | cons c cs ih =>
    intro p hp
    have hpend := utf8DecodeCore_pending (p ++ c)
    have h := ih (utf8DecodeCore (p ++ c)).2 hpend
    have happ := utf8DecodeCore_append (p ++ c) cs.flatten
    have hsplit : p ++ (c :: cs).flatten = (p ++ c) ++ cs.flatten := by
      simp [List.flatten_cons]
    constructor
    · simp only [streamReadLoop, List.filterMap_cons, chunkData,
        List.flatten_cons]
      rw [h.1, ← List.append_assoc, happ]
    · simp only [streamReadLoop, List.flatten_cons]
      rw [h.2, ← List.append_assoc, happ]

/-- Claim C1: for every inbound http_request and every outcome of the
single outbound fetch (buffered success, streaming success with or
without a mid-stream read failure, buffered read failure, or fetch
rejection), the dispatcher sends exactly one terminal message, and it
carries the id of the request. -/
theorem handleHttpRequest_exactly_one_terminal
    (id method url : String) (outcome : FetchOutcome) :
    ((handleHttpRequest id method url outcome).2.filter isTerminal).map messageId
      = [some id] := by
  cases outcome with
  | fetchFail m => simp [handleHttpRequest, isTerminal, messageId]
  | responseThrown st body m => simp [handleHttpRequest, isTerminal, messageId]
  | buffered st hd bodyBytes => simp [handleHttpRequest, isTerminal, messageId]
  | bufferedReadFail st hd m => simp [handleHttpRequest, isTerminal, messageId]
  | streamed st hd chunks =>
    have h := (streamReadLoop_chunks_only id chunks []).2.2
    simp [handleHttpRequest, isTerminal, h]
    split <;> simp [isTerminal, messageId]
  | streamedReadFail st hd chunks m =>
    have h := (streamReadLoop_chunks_only id chunks []).2.2
    simp [handleHttpRequest, isTerminal, messageId, h]

/-- Claim C5: for every streamed response, the concatenation of the
data fields of the emitted stream_chunk messages (the final flushed
residual included) equals the one-pass decoding of the full response
byte sequence, partial multi-byte sequences being carried across
chunk boundaries; and the terminal stream_end follows them all. -/
theorem stream_chunks_concat_eq_full_decode
    (id method url : String) (st : Nat) (hd : List (String × String))
    (chunks : List (List Nat)) :
    (((handleHttpRequest id method url
        (FetchOutcome.streamed st hd chunks)).2.filterMap chunkData).flatten
      = utf8DecodeAll chunks.flatten)
    ∧ ((handleHttpRequest id method url
        (FetchOutcome.streamed st hd chunks)).2.getLast?
      = some (WSClientSentMessage.streamEnd id)) := by
  have h := streamReadLoop_decodes id chunks [] (by simp [decodeStep])
  have h1 := h.1
  have h2 := h.2
  rw [List.nil_append] at h1 h2
  constructor
  · simp only [handleHttpRequest, List.filterMap_cons, chunkData,
      List.filterMap_append, List.flatten_append]
    rw [h1, h2]
    simp only [utf8DecodeAll]
    split
    · rename_i hf
      rw [hf]
      simp
    · simp [chunkData]
  · simp only [handleHttpRequest]
    exact List.getLast?_concat _

/-- Claim C6 counterexample: a streamed response consisting of one
byte chunk that is the first byte of a three-byte character decodes to
the empty string at that read, yet the dispatcher still sends a
stream_chunk message with empty data for it. -/
theorem empty_chunk_still_emitted_cex :
    (handleHttpRequest "r1" "POST" "https://h/x"
        (FetchOutcome.streamed 200 [] [[0xE4]])).2
      = [WSClientSentMessage.streamStart "r1" 200 [],
         WSClientSentMessage.streamChunk "r1" [],
         WSClientSentMessage.streamChunk "r1" [0xFFFD],
         WSClientSentMessage.streamEnd "r1"] := by
  have h2 : utf8DecodeCore [0xE4] = ([], [0xE4]) :=
    utf8DecodeCore_none _ (by decide)
  simp [handleHttpRequest, streamReadLoop, h2, flushFinal]

/-- A socket-level event delivered to the manager after it has been
set up: an unexpected or synthetic close (with code, reason and the
jitter that a reconnect scheduling would draw), or a socket error. -/
inductive SocketEv
  | closeEv (code : Nat) (reason : String) (jitter : Nat)
  | errEv
deriving DecidableEq, Repr

/-- Dispatching one socket event to its handler. -/
def stepEv (s : MState) : SocketEv → MState × List Effect
  | SocketEv.closeEv c r j => onSocketClose c r j s
  | SocketEv.errEv => onSocketError s

/-- Running a sequence of socket events, accumulating all effects. -/
def runEvents : MState → List SocketEv → MState × List Effect
  | s, [] => (s, [])
  | s, e :: es =>
    let r := stepEv s e
    let rest := runEvents r.1 es
    (rest.1, r.2 ++ rest.2)

/-- Whether an effect arms the reconnect timer. -/
def isArmReconnect : Effect → Bool
  | Effect.armReconnect _ => true
  | _ => false

/-- Whether an effect notifies a transition to RECONNECTING. -/
def isReconnectingNotify : Effect → Bool
  | Effect.notify WebSocketProxyStatus.RECONNECTING _ => true
  | _ => false

/-- The status carried by a notification effect. -/
def notifyStatus : Effect → Option WebSocketProxyStatus
  | Effect.notify st _ => some st
  | _ => none

/-- With no stored token and no pending reconnect timer, a close event
neither arms a reconnect timer nor transitions to RECONNECTING, and it
leaves both fields cleared: scheduleReconnect refuses for lack of a
token on the non-explicit path, and the explicit path never calls it. -/
theorem onSocketClose_no_reconnect (c : Nat) (rsn : String) (j : Nat)
    (s : MState) (h1 : s.currentJwtToken = none)
    (h2 : s.reconnectTimeoutId = none) :
    (onSocketClose c rsn j s).1.currentJwtToken = none
    ∧ (onSocketClose c rsn j s).1.reconnectTimeoutId = none
    ∧ (onSocketClose c rsn j s).2.filter isArmReconnect = []
    ∧ (onSocketClose c rsn j s).2.filter isReconnectingNotify = [] := by
  simp only [onSocketClose, scheduleReconnect, updateStatus]
  split_ifs <;>
    simp_all [isArmReconnect, isReconnectingNotify]

/-- disconnect clears the stored token and the pending reconnect
timer, and emits neither a timer-arming effect nor a RECONNECTING
notification, on every path. -/
theorem disconnect_clears (s : MState) :
    (disconnect s).1.currentJwtToken = none
    ∧ (disconnect s).1.reconnectTimeoutId = none
    ∧ (disconnect s).2.filter isArmReconnect = []
    ∧ (disconnect s).2.filter isReconnectingNotify = [] := by
  simp only [disconnect]
  split
  · split
    · simp [isArmReconnect, isReconnectingNotify]
    · have h := onSocketClose_no_reconnect 1000
        "Client initiated disconnect on non-open socket" 0
        { s with explicitClose := true, currentJwtToken := none,
                 reconnectTimeoutId := none, pingActive := false }
        rfl rfl
      exact ⟨h.1, h.2.1, h.2.2.1, h.2.2.2⟩
  · simp only [updateStatus]
    split_ifs <;> simp [isArmReconnect, isReconnectingNotify]

/-- Starting from a state with no stored token and no pending
reconnect timer, no sequence of close and error events can ever arm a
reconnect timer or transition to RECONNECTING, and both fields stay
cleared. -/
theorem runEvents_no_reconnect :
    ∀ (evs : List SocketEv) (s : MState),
    s.currentJwtToken = none → s.reconnectTimeoutId = none →
    (runEvents s evs).1.currentJwtToken = none
    ∧ (runEvents s evs).1.reconnectTimeoutId = none
    ∧ (runEvents s evs).2.filter isArmReconnect = []
    ∧ (runEvents s evs).2.filter isReconnectingNotify = [] := by
  intro evs
  induction evs with
  | nil => intro s h1 h2; simp [runEvents, h1, h2]
  | cons e es ih =>
    intro s h1 h2
    cases e with
    | closeEv c r j =>
      have hc := onSocketClose_no_reconnect c r j s h1 h2
      have hrest := ih (onSocketClose c r j s).1 hc.1 hc.2.1
      simp only [runEvents, stepEv, List.filter_append]
      exact ⟨hrest.1, hrest.2.1,
        by rw [hc.2.2.1, hrest.2.2.1]; rfl,
        by rw [hc.2.2.2, hrest.2.2.2]; rfl⟩
    | errEv =>
      have hrest := ih s h1 h2
      simp only [runEvents, stepEv, onSocketError, List.filter_append]
      exact ⟨hrest.1, hrest.2.1,
        by rw [hrest.2.2.1]; rfl,
        by rw [hrest.2.2.2]; rfl⟩

/-- Claim C3: after a disconnect call, no sequence of subsequent
socket close or error events ever schedules a reconnect — no
timer-arming effect and no RECONNECTING notification occurs, neither
during disconnect itself nor during the events — because disconnect
clears the stored token (and the pending timer), and scheduleReconnect
refuses without a token, transitioning to IDLE with a detail instead.
Only a new connect call stores a token again. -/
theorem disconnect_blocks_reconnect (s : MState) (evs : List SocketEv) :
    (runEvents (disconnect s).1 evs).1.currentJwtToken = none
    ∧ (runEvents (disconnect s).1 evs).1.reconnectTimeoutId = none
    ∧ (runEvents (disconnect s).1 evs).2.filter isArmReconnect = []
    ∧ (runEvents (disconnect s).1 evs).2.filter isReconnectingNotify = []
    ∧ (disconnect s).2.filter isArmReconnect = []
    ∧ (disconnect s).2.filter isReconnectingNotify = [] := by
  have hd := disconnect_clears s
  have hr := runEvents_no_reconnect evs (disconnect s).1 hd.1 hd.2.1
  exact ⟨hr.1, hr.2.1, hr.2.2.1, hr.2.2.2, hd.2.2.1, hd.2.2.2⟩

/-- The backoff stored by a scheduling step, in terms of the backoff
before it: doubled, capped at the maximum. -/
theorem scheduleReconnect_delay (s : MState) (j : Nat)
    (h1 : s.explicitClose = false) (h2 : s.currentJwtToken ≠ none) :
    (scheduleReconnect j s).1.currentReconnectDelay
      = min (s.currentReconnectDelay * 2) RECONNECT_MAX_DELAY_MS := by
  simp [scheduleReconnect, updateStatus, h1, h2]

/-- Claim C2: while credentials are stored and the close was not
explicit, each scheduleReconnect call doubles the stored base delay
capped at the configured maximum — so the base delay is non-decreasing
across successive calls and never exceeds the maximum once below it —
and onSocketOpen resets it to the configured initial value. -/
theorem reconnect_delay_monotone_and_reset :
    (∀ (s : MState) (j : Nat),
      s.explicitClose = false → s.currentJwtToken ≠ none →
      (scheduleReconnect j s).1.currentReconnectDelay
        = min (s.currentReconnectDelay * 2) RECONNECT_MAX_DELAY_MS)
    ∧ (∀ (s : MState) (j : Nat),
      s.explicitClose = false → s.currentJwtToken ≠ none →
      s.currentReconnectDelay ≤ RECONNECT_MAX_DELAY_MS →
      s.currentReconnectDelay ≤ (scheduleReconnect j s).1.currentReconnectDelay
        ∧ (scheduleReconnect j s).1.currentReconnectDelay ≤ RECONNECT_MAX_DELAY_MS)
    ∧ (∀ (s : MState),
      (onSocketOpen s).1.currentReconnectDelay = RECONNECT_INITIAL_DELAY_MS) := by
  refine ⟨fun s j h1 h2 => scheduleReconnect_delay s j h1 h2, ?_, ?_⟩
  · intro s j h1 h2 h3
    rw [scheduleReconnect_delay s j h1 h2]
    rw [Nat.min_def]
    split <;> constructor <;> omega
  · intro s
    simp [onSocketOpen]

/-- A disconnected state holding a token, as left by an unexpected
closure while connected with stored credentials. -/
def reconnState : MState :=
  { socket := none,
    currentStatus := WebSocketProxyStatus.DISCONNECTED,
    pingActive := false,
    reconnectTimeoutId := none,
    currentReconnectDelay := RECONNECT_INITIAL_DELAY_MS,
    explicitClose := false,
    currentJwtToken := some "tok" }

/-- Witness for claim C2 at a concrete disconnected state with a
stored token and a concrete jitter draw. -/
theorem reconnect_delay_monotone_and_reset_witness :
    (scheduleReconnect 250 reconnState).1.currentReconnectDelay
      = min (reconnState.currentReconnectDelay * 2) RECONNECT_MAX_DELAY_MS
    ∧ reconnState.currentReconnectDelay
        ≤ (scheduleReconnect 250 reconnState).1.currentReconnectDelay
    ∧ (onSocketOpen reconnState).1.currentReconnectDelay
        = RECONNECT_INITIAL_DELAY_MS :=
  ⟨reconnect_delay_monotone_and_reset.1 reconnState 250 rfl (by decide),
   (reconnect_delay_monotone_and_reset.2.1 reconnState 250 rfl (by decide)
      (by decide)).1,
   reconnect_delay_monotone_and_reset.2.2 reconnState⟩

/-- Claim C4: the dispatcher fetches exactly the sanitized URL; the
sanitation removes the key query parameter only for a GET request
whose URL parses with a path ending in the model-listing suffixes,
preserving the other parameters, and leaves the URL text untouched
for any other method, for an unparseable URL, and for any other path. -/
theorem sanitizeRequestUrl_spec :
    (∀ (id method url : String) (o : FetchOutcome),
      (handleHttpRequest id method url o).1 = sanitizeRequestUrl method url)
    ∧ (∀ (method url : String), method ≠ "GET" →
        sanitizeRequestUrl method url = url)
    ∧ (∀ (url : String), parseURL url = none →
        sanitizeRequestUrl "GET" url = url)
    ∧ (∀ (url : String) (p : ParsedURL), parseURL url = some p →
        strEndsWith p.pathname "/v1beta/models" = false →
        strEndsWith p.pathname "/v1beta/models/" = false →
        sanitizeRequestUrl "GET" url = url)
    ∧ sanitizeRequestUrl "GET" "https://h/v1beta/models?key=SECRET&x=1"
        = "https://h/v1beta/models?x=1"
    ∧ sanitizeRequestUrl "GET" "https://h/other?key=SECRET&x=1"
        = "https://h/other?key=SECRET&x=1"
    ∧ sanitizeRequestUrl "POST" "https://h/v1beta/models?key=SECRET&x=1"
        = "https://h/v1beta/models?key=SECRET&x=1"
    ∧ sanitizeRequestUrl "GET" "not a url" = "not a url" := by
  refine ⟨?_, ?_, ?_, ?_, by decide, by decide, by decide, by decide⟩
  · intro id method url o
    rfl
  · intro method url h
    simp [sanitizeRequestUrl, h]
  · intro url h
    simp [sanitizeRequestUrl, h]
  · intro url p h h1 h2
    simp [sanitizeRequestUrl, h, h1, h2]

/-- Witness for claim C4: a non-GET method leaves the URL unmodified. -/
theorem sanitizeRequestUrl_spec_witness :
    sanitizeRequestUrl "POST" "https://h/v1beta/models?key=S"
      = "https://h/v1beta/models?key=S" :=
  sanitizeRequestUrl_spec.2.1 "POST" "https://h/v1beta/models?key=S" (by decide)

/-- A connected state holding token A, with an open socket. -/
def connectedStateA : MState :=
  { socket := some WS_OPEN,
    currentStatus := WebSocketProxyStatus.CONNECTED,
    pingActive := true,
    reconnectTimeoutId := none,
    currentReconnectDelay := RECONNECT_INITIAL_DELAY_MS,
    explicitClose := false,
    currentJwtToken := some "A" }

/-- Claim C7 counterexample: calling connect with a different
non-empty token while already connected changes observable manager
state — the stored token becomes the new token, because the token
store precedes the already-connected check — even though no status
transition occurs and no connection attempt is made. -/
theorem connect_while_active_changes_state_cex :
    (connect true 0 "B" connectedStateA).1 ≠ connectedStateA
    ∧ (connect true 0 "B" connectedStateA).1.currentJwtToken = some "B"
    ∧ connectedStateA.currentJwtToken = some "A"
    ∧ (connect true 0 "B" connectedStateA).2 = []
    ∧ (connect true 0 "B" connectedStateA).1.currentStatus
        = connectedStateA.currentStatus := by
  decide

/-- Claim C7 as amended: a connect call with a non-empty token while
the socket is already open or connecting makes no connection attempt,
produces no effects and no status transition, and changes nothing in
the manager state except that the stored token is overwritten with
the token of the call. -/
theorem connect_while_active_amended (s : MState) (t : String)
    (ctorOk : Bool) (j : Nat) (h1 : t ≠ "")
    (h2 : s.socket = some WS_OPEN ∨ s.socket = some WS_CONNECTING) :
    connect ctorOk j t s = ({ s with currentJwtToken := some t }, []) := by
  simp only [connect]
  rw [if_neg h1]
  simp [h2]

/-- Witness for the amended claim C7 at the concrete connected state. -/
theorem connect_while_active_amended_witness :
    connect true 0 "B" connectedStateA
      = ({ connectedStateA with currentJwtToken := some "B" }, []) :=
  connect_while_active_amended connectedStateA "B" true 0 (by decide) (by decide)

/-- Claim C8: connect with an empty token fails fast — the manager
transitions to ERROR (notifying the observer with a detail) and
nothing else happens: no socket is created, no token is stored, no
timer is armed, every other field is untouched. -/
theorem connect_empty_token_error (s : MState) (ctorOk : Bool) (j : Nat) :
    connect ctorOk j "" s
      = ({ s with currentStatus := WebSocketProxyStatus.ERROR },
         [Effect.notify WebSocketProxyStatus.ERROR
           (some "JWT Token is required to connect.")]) := by
  simp [connect, updateStatus]

/-- Claim C9: an inbound frame that is unparseable, or whose type tag
is neither http_request nor pong, is logged and discarded: the state
is unchanged and no effect is produced — nothing is sent to the peer,
the connection is not closed, no status transition occurs. -/
theorem unknown_frame_discarded (s : MState) :
    onSocketMessage InboundFrame.unknownType s = (s, [])
    ∧ onSocketMessage InboundFrame.unparseable s = (s, []) :=
  ⟨rfl, rfl⟩

/-- Claim C10: when the WebSocket constructor throws inside connect
with a non-empty token (and the socket was not already open or
connecting), the manager notifies CONNECTING, then ERROR, then — since
the token was stored and the close was not explicit — RECONNECTING:
the reconnect timer is armed at the stored backoff plus jitter, so the
ERROR state recovers automatically without a new connect call. -/
theorem ctor_throw_recovers (s : MState) (t : String) (j : Nat)
    (h1 : t ≠ "")
    (h2 : ¬(s.socket = some WS_OPEN ∨ s.socket = some WS_CONNECTING))
    (h3 : s.currentStatus ≠ WebSocketProxyStatus.CONNECTING) :
    (connect false j t s).1.currentStatus = WebSocketProxyStatus.RECONNECTING
    ∧ (connect false j t s).1.reconnectTimeoutId
        = some (s.currentReconnectDelay + j)
    ∧ (connect false j t s).1.currentJwtToken = some t
    ∧ (connect false j t s).1.explicitClose = false
    ∧ (connect false j t s).2.filterMap notifyStatus
        = [WebSocketProxyStatus.CONNECTING, WebSocketProxyStatus.ERROR,
           WebSocketProxyStatus.RECONNECTING] := by
  simp [connect, updateStatus, scheduleReconnect, h1, h2, h3, notifyStatus]

/-- A fresh idle manager state, before any connect call. -/
def idleState : MState :=
  { socket := none,
    currentStatus := WebSocketProxyStatus.IDLE,
    pingActive := false,
    reconnectTimeoutId := none,
    currentReconnectDelay := RECONNECT_INITIAL_DELAY_MS,
    explicitClose := false,
    currentJwtToken := none }

/-- Witness for claim C10 at the fresh idle state with a concrete
token and zero jitter. -/
theorem ctor_throw_recovers_witness :
    (connect false 0 "tok" idleState).1.currentStatus
        = WebSocketProxyStatus.RECONNECTING
    ∧ (connect false 0 "tok" idleState).1.reconnectTimeoutId
        = some (idleState.currentReconnectDelay + 0)
    ∧ (connect false 0 "tok" idleState).1.currentJwtToken = some "tok"
    ∧ (connect false 0 "tok" idleState).1.explicitClose = false
    ∧ (connect false 0 "tok" idleState).2.filterMap notifyStatus
        = [WebSocketProxyStatus.CONNECTING, WebSocketProxyStatus.ERROR,
           WebSocketProxyStatus.RECONNECTING] :=
  ctor_throw_recovers idleState "tok" 0 (by decide) (by decide) (by decide)

/-- Claim C6 as amended: during a streamed response, a stream_chunk
message is emitted for every byte chunk read from the body, also when
its decoding is empty; only the final flushed residual chunk is
emitted conditionally on being non-empty. The number of stream_chunk
messages is therefore the number of reads, plus one exactly when the
flush of the trailing withheld bytes is non-empty. -/
theorem stream_chunk_per_read_amended
    (id method url : String) (st : Nat) (hd : List (String × String))
    (chunks : List (List Nat)) :
    ((handleHttpRequest id method url
        (FetchOutcome.streamed st hd chunks)).2.filter isStreamChunk).length
      = chunks.length
        + (if flushFinal (utf8DecodeCore chunks.flatten).2 = [] then 0 else 1) := by
  have h := streamReadLoop_chunks_only id chunks []
  have hd2 := (streamReadLoop_decodes id chunks [] (by simp [decodeStep])).2
  rw [List.nil_append] at hd2
  simp only [handleHttpRequest, hd2]
  split
  · rename_i hf
    simp [isStreamChunk, hf, h.1, h.2.1]
  · rename_i hf
    simp [isStreamChunk, hf, h.1, h.2.1]

